import Mathlib

/-!
Shallow embedding of the resource-governing core of the repository
(`src/model/core/PerformanceMonitor.js` and `src/model/core/ResourceManager.js`),
together with proofs of the queueing, metric and degradation properties.

The JavaScript runtime is single-threaded cooperative concurrency: every
operation is a synchronous block of mutations, and an `await` splits a method
into the synchronous prefix and a continuation that runs when the awaited
promise settles.  We therefore model each class as a state record and each
synchronous block as a pure state-transition function; a whole execution is a
fold of externally chosen events over the state.  JavaScript numbers are
modelled as `Int` where the source only adds, subtracts, compares and takes
`Math.max`/`Math.floor`, and as `ℚ` where the source divides.
-/

namespace ClearClause

/-! ### RequestQueue (src/model/core/PerformanceMonitor.js, lines 22-207)

A queue item is identified by its enqueue index (the source attaches a random
string id; only the order of items is observable, so consecutive `Nat` ids are
an order-preserving renaming).  `dispatchOrder` and `settleOrder` are
instrumentation fields: they record the order in which items left the wait
list and the order in which their work units settled, are written exactly when
the corresponding source event happens, and are read by no operation. -/

structure RQState where
  /-- wait list `this.queue`, FIFO: ids of not-yet-dispatched items. -/
  queue : List Nat
  /-- dispatched set `this.processing`; a list without duplicates. -/
  processing : List Nat
  /-- concurrency ceiling `this.maxConcurrent`; the constructor stores the
  argument unclamped, so it may be any integer. -/
  maxConcurrent : Int
  /-- history list `this.completed`. -/
  completed : List Nat
  /-- history list `this.failed`. -/
  failed : List Nat
  /-- counter `this.metrics.totalRequests`. -/
  totalRequests : Nat
  /-- counter `this.metrics.completedRequests`. -/
  completedRequests : Nat
  /-- counter `this.metrics.failedRequests`. -/
  failedRequests : Nat
  /-- id generator: the index the next enqueued item receives. -/
  nextId : Nat
  /-- instrumentation: ids in the order they were dispatched. -/
  dispatchOrder : List Nat
  /-- instrumentation: ids in the order their work units settled. -/
  settleOrder : List Nat
deriving DecidableEq

namespace RequestQueue

/-- Constructor `new RequestQueue(maxConcurrent)`: empty lists, zero counters. -/
def init (maxConcurrent : Int) : RQState :=
  { queue := [], processing := [], maxConcurrent := maxConcurrent
    completed := [], failed := []
    totalRequests := 0, completedRequests := 0, failedRequests := 0
    nextId := 0, dispatchOrder := [], settleOrder := [] }

/-- Synchronous prefix of `processNext` (lines 72-79): if the ceiling is
reached or the wait list is empty, return; otherwise shift the head of the
wait list into the processing set.  (Everything after `await item.request()`
belongs to the settle continuation, modelled by `settle`.) -/
def processNext (s : RQState) : RQState :=
  if (s.processing.length : Int) ≥ s.maxConcurrent ∨ s.queue = [] then s
  else
    match s.queue with
    | [] => s
    | i :: rest =>
      { s with queue := rest
               processing := s.processing ++ [i]
               dispatchOrder := s.dispatchOrder ++ [i] }

/-- Method `enqueue` (lines 43-66): push a fresh item on the wait list,
increment `totalRequests`, then attempt a dispatch. -/
def enqueue (s : RQState) : RQState :=
  processNext
    { s with queue := s.queue ++ [s.nextId]
             totalRequests := s.totalRequests + 1
             nextId := s.nextId + 1 }

/-- Continuation of `processNext` after `await item.request()` settles
(lines 88-124): remove the item from the processing set, append it to the
matching history list, bump the matching counter, then attempt the next
dispatch.  Only an item currently in the processing set can settle. -/
def settle (s : RQState) (i : Nat) (success : Bool) : RQState :=
  if i ∈ s.processing then
    processNext
      { s with processing := s.processing.erase i
               completed := if success then s.completed ++ [i] else s.completed
               failed := if success then s.failed else s.failed ++ [i]
               completedRequests :=
                 if success then s.completedRequests + 1 else s.completedRequests
               failedRequests :=
                 if success then s.failedRequests else s.failedRequests + 1
               settleOrder := s.settleOrder ++ [i] }
  else s

/-- Method `setMaxConcurrent` (lines 193-206): clamp the new limit to at
least 1 and, if the ceiling increased, attempt a dispatch. -/
def setMaxConcurrent (s : RQState) (newLimit : Int) : RQState :=
  let s' := { s with maxConcurrent := max 1 newLimit }
  if s'.maxConcurrent > s.maxConcurrent then processNext s' else s'

/-- Method `clearHistory` (lines 175-187): drop both history lists and reset
the counters, with `totalRequests` re-seeded to the number of still-live
items. -/
def clearHistory (s : RQState) : RQState :=
  { s with completed := [], failed := []
           totalRequests := s.queue.length + s.processing.length
           completedRequests := 0, failedRequests := 0 }

end RequestQueue

/-- Externally chosen events driving a RequestQueue run: an `enqueue` call,
the settling (fulfilment or rejection) of a dispatched work unit, a
`setMaxConcurrent` call, a `clearHistory` call. -/
inductive RQEvent where
  | enq : RQEvent
  | settle (i : Nat) (success : Bool) : RQEvent
  | setMax (newLimit : Int) : RQEvent
  | clear : RQEvent
deriving DecidableEq

/-- Effect of one event on the queue state. -/
def RQstep (s : RQState) : RQEvent → RQState
  | .enq => RequestQueue.enqueue s
  | .settle i ok => RequestQueue.settle s i ok
  | .setMax n => RequestQueue.setMaxConcurrent s n
  | .clear => RequestQueue.clearHistory s

/-- Run a list of events from a state. -/
def RQrun (s : RQState) : List RQEvent → RQState
  | [] => s
  | e :: es => RQrun (RQstep s e) es

/-- Condition on one event: a `setMaxConcurrent` call does not lower the
ceiling below its value in the state `s` at which the call happens. -/
def notLowering (s : RQState) : RQEvent → Bool
  | .setMax n => decide (s.maxConcurrent ≤ max 1 n)
  | _ => true

/-- Condition on a run: no `setMaxConcurrent` call lowers the ceiling below
its current value (computed against the state at which the call happens). -/
def noLower (s : RQState) : List RQEvent → Bool
  | [] => true
  | e :: es => notLowering s e && noLower (RQstep s e) es

/-! ### Claim C1: the concurrency bound -/

theorem processNext_maxConcurrent (s : RQState) :
    (RequestQueue.processNext s).maxConcurrent = s.maxConcurrent := by
  unfold RequestQueue.processNext
  split
  · rfl
  · split <;> rfl

theorem processNext_bound (s : RQState)
    (h : (s.processing.length : Int) ≤ s.maxConcurrent) :
    ((RequestQueue.processNext s).processing.length : Int)
      ≤ (RequestQueue.processNext s).maxConcurrent := by
  unfold RequestQueue.processNext
  split
  · exact h
  · rename_i hg
    push_neg at hg
    split
    · exact h
    · simp only [List.length_append, List.length_cons, List.length_nil]
      omega

theorem RQstep_bound (s : RQState) (e : RQEvent)
    (hlow : notLowering s e = true)
    (h : (s.processing.length : Int) ≤ s.maxConcurrent) :
    ((RQstep s e).processing.length : Int) ≤ (RQstep s e).maxConcurrent := by
  cases e with
  | enq =>
    exact processNext_bound _ h
  | settle i ok =>
    show ((RequestQueue.settle s i ok).processing.length : Int)
        ≤ (RequestQueue.settle s i ok).maxConcurrent
    unfold RequestQueue.settle
    split
    · refine processNext_bound _ ?_
      have hle : (s.processing.erase i).length ≤ s.processing.length :=
        (List.erase_sublist i s.processing).length_le
      simp only []
      omega
    · exact h
  | setMax n =>
    simp only [notLowering, decide_eq_true_eq] at hlow
    show ((RequestQueue.setMaxConcurrent s n).processing.length : Int)
        ≤ (RequestQueue.setMaxConcurrent s n).maxConcurrent
    simp only [RequestQueue.setMaxConcurrent]
    split
    · exact processNext_bound _ (by simpa using h.trans hlow)
    · simpa using h.trans hlow
  | clear =>
    exact h

/-- Claim C1 (amended): a dispatch happens only below the ceiling, so in
every run in which the ceiling is never lowered at runtime — no
`setMaxConcurrent` call (direct, or issued by degradation) drops
`maxConcurrent` below its current value — the size of the processing set
never exceeds `maxConcurrent`, provided it did not at the start.  (As stated
the claim is false: lowering the ceiling leaves already-dispatched work units
in flight, see the counterexample.) -/
theorem rq_concurrency_bound_of_noLower (s : RQState) (es : List RQEvent)
    (hlow : noLower s es = true)
    (hinv : (s.processing.length : Int) ≤ s.maxConcurrent) :
    ((RQrun s es).processing.length : Int) ≤ (RQrun s es).maxConcurrent := by
  induction es generalizing s with
  | nil => exact hinv
  | cons e es ih =>
    rw [noLower, Bool.and_eq_true] at hlow
    exact ih (RQstep s e) hlow.2 (RQstep_bound s e hlow.1 hinv)

/-- Claim C1, witness: a run with two settlements and a raised-then-kept
ceiling keeps the processing set within the ceiling. -/
theorem rq_concurrency_bound_witness :
    noLower (RequestQueue.init 2)
        [.enq, .enq, .enq, .settle 0 true, .setMax 3, .enq, .settle 1 false] = true
      ∧ (((RQrun (RequestQueue.init 2)
        [.enq, .enq, .enq, .settle 0 true, .setMax 3, .enq,
          .settle 1 false]).processing.length : Int)
        ≤ (RQrun (RequestQueue.init 2)
        [.enq, .enq, .enq, .settle 0 true, .setMax 3, .enq,
          .settle 1 false]).maxConcurrent) :=
  ⟨by decide,
   rq_concurrency_bound_of_noLower (RequestQueue.init 2)
     [.enq, .enq, .enq, .settle 0 true, .setMax 3, .enq, .settle 1 false]
     (by decide) (by decide)⟩

/-- Claim C1, counterexample to the claim as stated: enqueue two items with
ceiling 2 (both dispatch), then lower the ceiling to 1 at runtime; at that
instant the processing set has size 2 > 1 = `maxConcurrent`. -/
theorem rq_concurrency_bound_cex :
    ¬ (((RQrun (RequestQueue.init 2)
          [.enq, .enq, .setMax 1]).processing.length : Int)
        ≤ (RQrun (RequestQueue.init 2) [.enq, .enq, .setMax 1]).maxConcurrent) := by
  decide

/-! ### Claim C2: FIFO dispatch and completion order -/

/-- Recogniser for `setMaxConcurrent` events. -/
def isSetMax : RQEvent → Bool
  | .setMax _ => true
  | _ => false

/-- Condition on a run: no `setMaxConcurrent` call occurs, so the ceiling
stays at its constructed value. -/
def noSetMax (es : List RQEvent) : Bool := es.all (fun e => !isSetMax e)

/-- Inductive invariant behind the general dispatch-order property: the wait
list is sorted by enqueue index, every already-dispatched id precedes every
waiting id, the dispatch record is sorted, and all ids are below the id
generator. -/
structure DispatchInv (s : RQState) : Prop where
  queueSorted : s.queue.Pairwise (· < ·)
  dispQueue : ∀ x ∈ s.dispatchOrder, ∀ y ∈ s.queue, x < y
  dispSorted : s.dispatchOrder.Pairwise (· < ·)
  queueLt : ∀ x ∈ s.queue, x < s.nextId
  dispLt : ∀ x ∈ s.dispatchOrder, x < s.nextId

theorem processNext_dispatchInv (s : RQState) (h : DispatchInv s) :
    DispatchInv (RequestQueue.processNext s) := by
  cases hq : s.queue with
  | nil =>
    simpa [RequestQueue.processNext, hq] using h
  | cons i rest =>
    by_cases hc : (s.processing.length : Int) ≥ s.maxConcurrent
    · simpa [RequestQueue.processNext, hq, hc] using h
    · obtain ⟨hqp, hdq, hdp, hqn, hdn⟩ := h
      rw [hq, List.pairwise_cons] at hqp
      rw [hq] at hqn hdq
      simp only [RequestQueue.processNext, hq, hc, false_or, if_neg,
        reduceCtorEq, not_false_eq_true]
      refine ⟨hqp.2, ?_, ?_, ?_, ?_⟩
      · intro x hx y hy
        rcases List.mem_append.mp hx with hx | hx
        · exact hdq x hx y (List.mem_cons_of_mem _ hy)
        · rw [List.mem_singleton.mp hx]
          exact hqp.1 y hy
      · refine List.pairwise_append.mpr ⟨hdp, List.pairwise_singleton _ _, ?_⟩
        intro a ha b hb
        rw [List.mem_singleton.mp hb]
        exact hdq a ha i (List.mem_cons_self _ _)
      · intro x hx
        exact hqn x (List.mem_cons_of_mem _ hx)
      · intro x hx
        rcases List.mem_append.mp hx with hx | hx
        · exact hdn x hx
        · rw [List.mem_singleton.mp hx]
          exact hqn i (List.mem_cons_self _ _)

theorem RQstep_dispatchInv (s : RQState) (e : RQEvent) (h : DispatchInv s) :
    DispatchInv (RQstep s e) := by
  cases e with
  | enq =>
    refine processNext_dispatchInv _ ?_
    obtain ⟨hqp, hdq, hdp, hqn, hdn⟩ := h
    refine ⟨?_, ?_, hdp, ?_, ?_⟩
    · refine List.pairwise_append.mpr ⟨hqp, List.pairwise_singleton _ _, ?_⟩
      intro a ha b hb
      rw [List.mem_singleton.mp hb]
      exact hqn a ha
    · intro x hx y hy
      rcases List.mem_append.mp hy with hy | hy
      · exact hdq x hx y hy
      · rw [List.mem_singleton.mp hy]
        exact hdn x hx
    · intro x hx
      rcases List.mem_append.mp hx with hx | hx
      · exact Nat.lt_succ_of_lt (hqn x hx)
      · rw [List.mem_singleton.mp hx]
        exact Nat.lt_succ_self _
    · intro x hx
      exact Nat.lt_succ_of_lt (hdn x hx)
  | settle i ok =>
    show DispatchInv (RequestQueue.settle s i ok)
    unfold RequestQueue.settle
    split
    · exact processNext_dispatchInv _ ⟨h.1, h.2, h.3, h.4, h.5⟩
    · exact h
  | setMax n =>
    show DispatchInv (RequestQueue.setMaxConcurrent s n)
    simp only [RequestQueue.setMaxConcurrent]
    split
    · exact processNext_dispatchInv _ ⟨h.1, h.2, h.3, h.4, h.5⟩
    · exact ⟨h.1, h.2, h.3, h.4, h.5⟩
  | clear =>
    exact ⟨h.1, h.2, h.3, h.4, h.5⟩

theorem RQrun_dispatchInv (s : RQState) (es : List RQEvent) (h : DispatchInv s) :
    DispatchInv (RQrun s es) := by
  induction es generalizing s with
  | nil => exact h
  | cons e es ih => exact ih _ (RQstep_dispatchInv s e h)

/-- Inductive invariant behind the completion-order property for a queue
with ceiling 1: at most one item is in flight, the wait list is sorted, all
settled ids precede the in-flight id, which precedes all waiting ids, and
all ids are below the id generator. -/
structure FifoInv (s : RQState) : Prop where
  maxOne : s.maxConcurrent = 1
  queueSorted : s.queue.Pairwise (· < ·)
  settleSorted : s.settleOrder.Pairwise (· < ·)
  settleProc : ∀ x ∈ s.settleOrder, ∀ y ∈ s.processing, x < y
  settleQueue : ∀ x ∈ s.settleOrder, ∀ y ∈ s.queue, x < y
  procQueue : ∀ x ∈ s.processing, ∀ y ∈ s.queue, x < y
  procLen : s.processing.length ≤ 1
  queueLt : ∀ x ∈ s.queue, x < s.nextId
  procLt : ∀ x ∈ s.processing, x < s.nextId
  settleLt : ∀ x ∈ s.settleOrder, x < s.nextId

theorem eq_singleton_of_mem_len_le_one {i : Nat} {l : List Nat}
    (hm : i ∈ l) (hl : l.length ≤ 1) : l = [i] := by
  cases l with
  | nil => cases hm
  | cons a t =>
    cases t with
    | nil =>
      rcases List.mem_singleton.mp hm with rfl
      rfl
    | cons b u => simp at hl

theorem processNext_fifoInv (s : RQState) (h : FifoInv s) :
    FifoInv (RequestQueue.processNext s) := by
  cases hq : s.queue with
  | nil =>
    simpa [RequestQueue.processNext, hq] using h
  | cons i rest =>
    by_cases hc : (s.processing.length : Int) ≥ s.maxConcurrent
    · simpa [RequestQueue.processNext, hq, hc] using h
    · obtain ⟨hm, hqp, hsp, hspr, hsq, hpq, hpl, hqn, hpn, hsn⟩ := h
      have hp0 : s.processing = [] := by
        rw [hm] at hc
        have : s.processing.length = 0 := by omega
        exact List.length_eq_zero.mp this
      rw [hq, List.pairwise_cons] at hqp
      rw [hq] at hqn hsq hpq
      simp only [RequestQueue.processNext, hq, hc, false_or, if_neg,
        reduceCtorEq, not_false_eq_true]
      refine ⟨hm, hqp.2, hsp, ?_, ?_, ?_, ?_, ?_, ?_, hsn⟩
      · intro x hx y hy
        rcases List.mem_append.mp hy with hy | hy
        · exact hspr x hx y hy
        · rw [List.mem_singleton.mp hy]
          exact hsq x hx i (List.mem_cons_self _ _)
      · intro x hx y hy
        exact hsq x hx y (List.mem_cons_of_mem _ hy)
      · intro x hx y hy
        rw [hp0] at hx
        rcases List.mem_append.mp hx with hx | hx
        · cases hx
        · rw [List.mem_singleton.mp hx]
          exact hqp.1 y hy
      · rw [hp0]
        simp
      · intro x hx
        exact hqn x (List.mem_cons_of_mem _ hx)
      · intro x hx
        rcases List.mem_append.mp hx with hx | hx
        · exact hpn x hx
        · rw [List.mem_singleton.mp hx]
          exact hqn i (List.mem_cons_self _ _)

theorem RQstep_fifoInv (s : RQState) (e : RQEvent) (hns : isSetMax e = false)
    (h : FifoInv s) : FifoInv (RQstep s e) := by
  cases e with
  | enq =>
    refine processNext_fifoInv _ ?_
    obtain ⟨hm, hqp, hsp, hspr, hsq, hpq, hpl, hqn, hpn, hsn⟩ := h
    refine ⟨hm, ?_, hsp, hspr, ?_, ?_, hpl, ?_, ?_, ?_⟩
    · refine List.pairwise_append.mpr ⟨hqp, List.pairwise_singleton _ _, ?_⟩
      intro a ha b hb
      rw [List.mem_singleton.mp hb]
      exact hqn a ha
    · intro x hx y hy
      rcases List.mem_append.mp hy with hy | hy
      · exact hsq x hx y hy
      · rw [List.mem_singleton.mp hy]
        exact hsn x hx
    · intro x hx y hy
      rcases List.mem_append.mp hy with hy | hy
      · exact hpq x hx y hy
      · rw [List.mem_singleton.mp hy]
        exact hpn x hx
    · intro x hx
      rcases List.mem_append.mp hx with hx | hx
      · exact Nat.lt_succ_of_lt (hqn x hx)
      · rw [List.mem_singleton.mp hx]
        exact Nat.lt_succ_self _
    · intro x hx
      exact Nat.lt_succ_of_lt (hpn x hx)
    · intro x hx
      exact Nat.lt_succ_of_lt (hsn x hx)
  | settle i ok =>
    show FifoInv (RequestQueue.settle s i ok)
    unfold RequestQueue.settle
    split
    · rename_i hmem
      refine processNext_fifoInv _ ?_
      obtain ⟨hm, hqp, hsp, hspr, hsq, hpq, hpl, hqn, hpn, hsn⟩ := h
      have hpi : s.processing = [i] := eq_singleton_of_mem_len_le_one hmem hpl
      have her : s.processing.erase i = [] := by rw [hpi]; simp
      refine ⟨hm, hqp, ?_, ?_, ?_, ?_, ?_, hqn, ?_, ?_⟩
      · refine List.pairwise_append.mpr ⟨hsp, List.pairwise_singleton _ _, ?_⟩
        intro a ha b hb
        rw [List.mem_singleton.mp hb]
        exact hspr a ha i hmem
      · intro x hx y hy
        rw [her] at hy
        cases hy
      · intro x hx y hy
        rcases List.mem_append.mp hx with hx | hx
        · exact hsq x hx y hy
        · rw [List.mem_singleton.mp hx]
          exact hpq i hmem y hy
      · intro x hx y hy
        rw [her] at hx
        cases hx
      · rw [her]
        simp
      · intro x hx
        rw [her] at hx
        cases hx
      · intro x hx
        rcases List.mem_append.mp hx with hx | hx
        · exact hsn x hx
        · rw [List.mem_singleton.mp hx]
          exact hpn i hmem
    · exact h
  | setMax n =>
    simp [isSetMax] at hns
  | clear =>
    exact ⟨h.1, h.2, h.3, h.4, h.5, h.6, h.7, h.8, h.9, h.10⟩

theorem RQrun_fifoInv (s : RQState) (es : List RQEvent)
    (hns : noSetMax es = true) (h : FifoInv s) : FifoInv (RQrun s es) := by
  induction es generalizing s with
  | nil => exact h
  | cons e es ih =>
    rw [noSetMax, List.all_cons, Bool.and_eq_true] at hns
    refine ih _ ?_ (RQstep_fifoInv s e ?_ h)
    · exact hns.2
    · simpa using hns.1

/-- Claim C2: dispatch is in enqueue order in every run (no waiting item is
dispatched before an earlier-enqueued one), and with the ceiling constructed
as 1 and never changed at runtime the work units also settle (complete or
fail) in exactly enqueue order. -/
theorem rq_fifo_order (es : List RQEvent) (hns : noSetMax es = true) :
    (RQrun (RequestQueue.init 1) es).settleOrder.Pairwise (· < ·)
      ∧ ∀ (c : Int) (es2 : List RQEvent),
          (RQrun (RequestQueue.init c) es2).dispatchOrder.Pairwise (· < ·) := by
  constructor
  · have hinit : FifoInv (RequestQueue.init 1) := by
      refine ⟨rfl, ?_, ?_, ?_, ?_, ?_, ?_, ?_, ?_, ?_⟩ <;> simp [RequestQueue.init]
    exact (RQrun_fifoInv _ es hns hinit).settleSorted
  · intro c es2
    have hinit : DispatchInv (RequestQueue.init c) := by
      refine ⟨?_, ?_, ?_, ?_, ?_⟩ <;> simp [RequestQueue.init]
    exact (RQrun_dispatchInv _ es2 hinit).dispSorted

/-- Claim C2, witness: a concrete interleaved run with ceiling 1 settles in
enqueue order. -/
theorem rq_fifo_order_witness :
    noSetMax [.enq, .enq, .settle 0 true, .enq, .settle 1 false, .settle 2 true] = true
      ∧ ((RQrun (RequestQueue.init 1)
          [.enq, .enq, .settle 0 true, .enq, .settle 1 false,
            .settle 2 true]).settleOrder.Pairwise (· < ·)
        ∧ ∀ (c : Int) (es2 : List RQEvent),
            (RQrun (RequestQueue.init c) es2).dispatchOrder.Pairwise (· < ·)) :=
  ⟨by decide,
   rq_fifo_order [.enq, .enq, .settle 0 true, .enq, .settle 1 false, .settle 2 true]
     (by decide)⟩

/-! ### PerformanceMonitor (src/model/core/PerformanceMonitor.js, lines 212-501)

Timestamps (`Date.now()`) are integers supplied by the environment at each
event.  Division only happens inside `updatePerformanceMetrics`, so the
derived metrics are modelled as `ℚ` while counters, timestamps and the
response-time samples stay `Int`.  The `resources` sub-record (memory, cpu,
active connections) only mirrors other fields for logging and is not
modelled; `checkAlerts` only logs and is not modelled. -/

structure PMState where
  /-- counter `metrics.requests.total`. -/
  total : Int
  /-- counter `metrics.requests.completed`. -/
  completed : Int
  /-- counter `metrics.requests.failed`. -/
  failed : Int
  /-- counter `metrics.requests.inProgress`. -/
  inProgress : Int
  /-- rolling sample buffer `this.responseTimes` (durations in ms). -/
  responseTimes : List Int
  /-- timestamp `metrics.timestamps.startTime`. -/
  startTime : Int
  /-- timestamp `metrics.timestamps.lastUpdate`. -/
  lastUpdate : Int
  /-- derived metric `metrics.performance.averageResponseTime`. -/
  averageResponseTime : ℚ
  /-- derived metric `metrics.performance.p95ResponseTime`. -/
  p95ResponseTime : Int
  /-- derived metric `metrics.performance.errorRate`. -/
  errorRate : ℚ
  /-- derived metric `metrics.performance.throughput`. -/
  throughput : ℚ
  /-- flag `this.isMonitoring`. -/
  isMonitoring : Bool
deriving DecidableEq

namespace PerformanceMonitor

/-- Constructor (lines 213-253) at wall-clock time `now`. -/
def init (now : Int) : PMState :=
  { total := 0, completed := 0, failed := 0, inProgress := 0
    responseTimes := [], startTime := now, lastUpdate := now
    averageResponseTime := 0, p95ResponseTime := 0, errorRate := 0
    throughput := 0, isMonitoring := false }

/-- Insert into an ascending list (helper for the sort below). -/
def insertAsc (x : Int) : List Int → List Int
  | [] => [x]
  | y :: ys => if x ≤ y then x :: y :: ys else y :: insertAsc x ys

/-- Ascending insertion sort, modelling `[...].sort((a, b) => a - b)`
(duplicate numbers are interchangeable, so stability is irrelevant). -/
def sortAsc : List Int → List Int
  | [] => []
  | x :: xs => insertAsc x (sortAsc xs)

/-- Method `updatePerformanceMetrics` (lines 356-382): recompute average,
95th percentile, error rate and throughput from the current counters and
sample buffer; a no-op while the buffer is empty.  The index
`Math.floor(length * 0.95)` is written `19 * length / 20` in `Nat`
arithmetic: for every length up to the buffer cap of 1000 the
double-precision product is close enough to `0.95 · length` that both floors
agree. -/
def updatePerformanceMetrics (now : Int) (s : PMState) : PMState :=
  if s.responseTimes = [] then s
  else
    let len := s.responseTimes.length
    let totalTime : Int := s.responseTimes.foldl (· + ·) 0
    let sorted := sortAsc s.responseTimes
    let p95Index := 19 * len / 20
    let uptime : ℚ := ((now - s.startTime : Int) : ℚ) / 1000
    { s with
      averageResponseTime := (totalTime : ℚ) / (len : ℚ)
      p95ResponseTime := sorted.getD p95Index 0
      errorRate := if 0 < s.total then (s.failed : ℚ) / (s.total : ℚ) else 0
      throughput := if 0 < uptime then (s.completed : ℚ) / uptime else 0
      lastUpdate := now }

/-- Method `recordRequestStart` (lines 300-315): increments `total` and
`inProgress`.  (The returned tracking object carries the start timestamp; it
is passed back in at `recordRequestEnd` as `reqStart`.) -/
def recordRequestStart (s : PMState) : PMState :=
  { s with total := s.total + 1, inProgress := s.inProgress + 1 }

/-- Method `recordRequestEnd` (lines 322-350) at wall-clock time `now` for a
request started at `reqStart`: decrement `inProgress`, bump `completed` or
`failed`, append the duration to the sample buffer, keep only the most
recent 1000 samples, then recompute the derived metrics. -/
def recordRequestEnd (reqStart now : Int) (success : Bool) (s : PMState) : PMState :=
  let duration := now - reqStart
  let rts := s.responseTimes ++ [duration]
  let rts := if 1000 < rts.length then rts.drop (rts.length - 1000) else rts
  updatePerformanceMetrics now
    { s with
      inProgress := s.inProgress - 1
      completed := if success then s.completed + 1 else s.completed
      failed := if success then s.failed else s.failed + 1
      responseTimes := rts }

/-- Method `startMonitoring` (lines 258-275): a no-op while already
monitoring; otherwise sets the flag and re-stamps `startTime`.  (The
periodic timer it installs is modelled by `tick` events.) -/
def startMonitoring (now : Int) (s : PMState) : PMState :=
  if s.isMonitoring then s
  else { s with isMonitoring := true, startTime := now }

/-- Method `stopMonitoring` (lines 280-293): clears the flag. -/
def stopMonitoring (s : PMState) : PMState :=
  if s.isMonitoring then { s with isMonitoring := false } else s

/-- Method `resetMetrics` (lines 438-466): zero all counters and metrics,
re-stamp the timestamps, empty the sample buffer. -/
def resetMetrics (now : Int) (s : PMState) : PMState :=
  { total := 0, completed := 0, failed := 0, inProgress := 0
    responseTimes := [], startTime := now, lastUpdate := now
    averageResponseTime := 0, p95ResponseTime := 0, errorRate := 0
    throughput := 0, isMonitoring := s.isMonitoring }

end PerformanceMonitor

/-- Externally chosen events driving a PerformanceMonitor run. `tick` is one
firing of the periodic monitoring timer (its `updateMetrics` body ends in
`updatePerformanceMetrics`). -/
inductive PMEvent where
  | start : PMEvent
  | finish (reqStart now : Int) (success : Bool) : PMEvent
  | startMon (now : Int) : PMEvent
  | stopMon : PMEvent
  | tick (now : Int) : PMEvent
  | reset (now : Int) : PMEvent
deriving DecidableEq

/-- Effect of one event on the monitor state. -/
def PMstep (s : PMState) : PMEvent → PMState
  | .start => PerformanceMonitor.recordRequestStart s
  | .finish t n ok => PerformanceMonitor.recordRequestEnd t n ok s
  | .startMon n => PerformanceMonitor.startMonitoring n s
  | .stopMon => PerformanceMonitor.stopMonitoring s
  | .tick n => PerformanceMonitor.updatePerformanceMetrics n s
  | .reset n => PerformanceMonitor.resetMetrics n s

/-- Run a list of events from a state. -/
def PMrun (s : PMState) : List PMEvent → PMState
  | [] => s
  | e :: es => PMrun (PMstep s e) es

/-! ### Claim C4: counter conservation -/

/-- Conservation equation of the RequestQueue: every enqueued item is in
exactly one of the processing set, the wait list, or the two histories. -/
def RQConserved (s : RQState) : Prop :=
  s.totalRequests
    = s.processing.length + s.queue.length + s.completed.length + s.failed.length

/-- Conservation equation of the PerformanceMonitor counters. -/
def PMConserved (s : PMState) : Prop :=
  s.total = s.completed + s.failed + s.inProgress

theorem processNext_conserved (s : RQState) (h : RQConserved s) :
    RQConserved (RequestQueue.processNext s) := by
  cases hq : s.queue with
  | nil => simpa [RequestQueue.processNext, hq] using h
  | cons i rest =>
    by_cases hc : (s.processing.length : Int) ≥ s.maxConcurrent
    · simpa [RequestQueue.processNext, hq, hc] using h
    · unfold RQConserved at h
      rw [hq] at h
      simp only [RequestQueue.processNext, hq, hc, false_or, if_neg,
        reduceCtorEq, not_false_eq_true]
      unfold RQConserved
      simp only [List.length_append, List.length_cons, List.length_nil] at h ⊢
      omega

theorem RQstep_conserved (s : RQState) (e : RQEvent) (h : RQConserved s) :
    RQConserved (RQstep s e) := by
  cases e with
  | enq =>
    refine processNext_conserved _ ?_
    unfold RQConserved at h ⊢
    simp only [List.length_append, List.length_cons, List.length_nil]
    omega
  | settle i ok =>
    show RQConserved (RequestQueue.settle s i ok)
    unfold RequestQueue.settle
    split
    · rename_i hmem
      refine processNext_conserved _ ?_
      have h1 : (s.processing.erase i).length = s.processing.length - 1 :=
        List.length_erase_of_mem hmem
      have h2 : 0 < s.processing.length := List.length_pos_of_mem hmem
      unfold RQConserved at h ⊢
      cases ok <;> simp [h1] <;> omega
    · exact h
  | setMax n =>
    show RQConserved (RequestQueue.setMaxConcurrent s n)
    simp only [RequestQueue.setMaxConcurrent]
    split
    · exact processNext_conserved _ h
    · exact h
  | clear =>
    show RQConserved (RequestQueue.clearHistory s)
    unfold RQConserved RequestQueue.clearHistory
    simp only [List.length_nil]
    omega

theorem updatePerformanceMetrics_counters (now : Int) (s : PMState) :
    (PerformanceMonitor.updatePerformanceMetrics now s).total = s.total
      ∧ (PerformanceMonitor.updatePerformanceMetrics now s).completed = s.completed
      ∧ (PerformanceMonitor.updatePerformanceMetrics now s).failed = s.failed
      ∧ (PerformanceMonitor.updatePerformanceMetrics now s).inProgress = s.inProgress := by
  unfold PerformanceMonitor.updatePerformanceMetrics
  split <;> exact ⟨rfl, rfl, rfl, rfl⟩

theorem PMstep_conserved (s : PMState) (e : PMEvent) (h : PMConserved s) :
    PMConserved (PMstep s e) := by
  cases e with
  | start =>
    unfold PMConserved at h ⊢
    simp only [PMstep, PerformanceMonitor.recordRequestStart]
    omega
  | finish t n ok =>
    show PMConserved (PerformanceMonitor.recordRequestEnd t n ok s)
    unfold PerformanceMonitor.recordRequestEnd
    obtain ⟨h1, h2, h3, h4⟩ := updatePerformanceMetrics_counters n
      { s with
        inProgress := s.inProgress - 1
        completed := if ok then s.completed + 1 else s.completed
        failed := if ok then s.failed else s.failed + 1
        responseTimes :=
          if 1000 < (s.responseTimes ++ [n - t]).length then
            (s.responseTimes ++ [n - t]).drop ((s.responseTimes ++ [n - t]).length - 1000)
          else s.responseTimes ++ [n - t] }
    unfold PMConserved at h ⊢
    rw [h1, h2, h3, h4]
    cases ok <;> (try simp) <;> omega
  | startMon n =>
    show PMConserved (PerformanceMonitor.startMonitoring n s)
    unfold PerformanceMonitor.startMonitoring
    split <;> exact h
  | stopMon =>
    show PMConserved (PerformanceMonitor.stopMonitoring s)
    unfold PerformanceMonitor.stopMonitoring
    split <;> exact h
  | tick n =>
    obtain ⟨h1, h2, h3, h4⟩ := updatePerformanceMetrics_counters n s
    show PMConserved (PerformanceMonitor.updatePerformanceMetrics n s)
    unfold PMConserved at h ⊢
    rw [h1, h2, h3, h4]
    exact h
  | reset n =>
    unfold PMConserved
    simp [PMstep, PerformanceMonitor.resetMetrics]

/-- Claim C4: in every reachable state, the PerformanceMonitor satisfies
`total = completed + failed + inProgress`, and the RequestQueue satisfies
`totalRequests = processing.size + queue.length + completed.length +
failed.length`; both equalities are preserved by every operation, including
`clearHistory`. -/
theorem pm_rq_counter_conservation (t0 c : Int)
    (pmEs : List PMEvent) (rqEs : List RQEvent) :
    PMConserved (PMrun (PerformanceMonitor.init t0) pmEs)
      ∧ RQConserved (RQrun (RequestQueue.init c) rqEs) := by
  constructor
  · have hrun : ∀ (es : List PMEvent) (s : PMState),
        PMConserved s → PMConserved (PMrun s es) := by
      intro es
      induction es with
      | nil => exact fun s h => h
      | cons e es ih => exact fun s h => ih _ (PMstep_conserved s e h)
    exact hrun pmEs _ (by simp [PMConserved, PerformanceMonitor.init])
  · have hrun : ∀ (es : List RQEvent) (s : RQState),
        RQConserved s → RQConserved (RQrun s es) := by
      intro es
      induction es with
      | nil => exact fun s h => h
      | cons e es ih => exact fun s h => ih _ (RQstep_conserved s e h)
    exact hrun rqEs _ (by simp [RQConserved, RequestQueue.init])

/-! ### Claim C7: the worked metric scenario -/

/-- Run of the spec scenario: three successful requests with durations
100 ms, 200 ms, 300 ms, then one failed request with duration 50 ms. -/
def scenarioRun : PMState :=
  PMrun (PerformanceMonitor.init 0)
    [.start, .finish 0 100 true, .start, .finish 1000 1200 true,
     .start, .finish 2000 2300 true, .start, .finish 3000 3050 false]

/-- Claim C7: after recording three successes (100 ms, 200 ms, 300 ms) and
one failure (50 ms), `errorRate = 0.25` and `averageResponseTime = 162.5`;
the failed duration is in the rolling sample buffer and hence in the
average. -/
theorem pm_scenario_metrics :
    scenarioRun.errorRate = 0.25
      ∧ scenarioRun.averageResponseTime = 162.5
      ∧ scenarioRun.responseTimes = [100, 200, 300, 50] := by
  simp [scenarioRun, PMrun, PMstep, PerformanceMonitor.recordRequestStart,
    PerformanceMonitor.recordRequestEnd, PerformanceMonitor.updatePerformanceMetrics,
    PerformanceMonitor.init, PerformanceMonitor.sortAsc, PerformanceMonitor.insertAsc]
  norm_num

/-! ### Claim C8: throughput and error-rate division safety -/

/-- Claim C8: after `updatePerformanceMetrics` recomputes (it runs whenever
the sample buffer is non-empty), throughput equals completed divided by the
elapsed wall-clock seconds since `startTime`, and is 0 when the elapsed time
is zero; error rate equals failed divided by total, and is 0 when total
is 0. -/
theorem pm_metric_division_safety (s : PMState) (now : Int)
    (h : s.responseTimes ≠ []) :
    ((0:ℚ) < ((now - s.startTime : Int) : ℚ) / 1000 →
        (PerformanceMonitor.updatePerformanceMetrics now s).throughput
          = (s.completed : ℚ) / (((now - s.startTime : Int) : ℚ) / 1000))
      ∧ (now = s.startTime →
        (PerformanceMonitor.updatePerformanceMetrics now s).throughput = 0)
      ∧ (0 < s.total →
        (PerformanceMonitor.updatePerformanceMetrics now s).errorRate
          = (s.failed : ℚ) / (s.total : ℚ))
      ∧ (s.total = 0 →
        (PerformanceMonitor.updatePerformanceMetrics now s).errorRate = 0) := by
  simp only [PerformanceMonitor.updatePerformanceMetrics, if_neg h]
  refine ⟨?_, ?_, ?_, ?_⟩
  · intro hpos
    simp only [if_pos hpos]
  · intro heq
    have h0 : ((now - s.startTime : Int) : ℚ) / 1000 = 0 := by
      rw [heq]
      simp
    rw [h0]
    simp
  · intro hpos
    simp only [if_pos hpos]
  · intro h0
    rw [h0]
    simp

/-- Sample monitor state used to witness claim C8: four requests recorded,
three completed, one failed, one sample in the buffer. -/
def pmSample : PMState :=
  { total := 4, completed := 3, failed := 1, inProgress := 0
    responseTimes := [100], startTime := 0, lastUpdate := 0
    averageResponseTime := 0, p95ResponseTime := 0, errorRate := 0
    throughput := 0, isMonitoring := true }

/-- Claim C8, witness at `pmSample` and wall-clock time 2000. -/
theorem pm_metric_division_safety_witness :
    pmSample.responseTimes ≠ []
      ∧ (((0:ℚ) < ((2000 - pmSample.startTime : Int) : ℚ) / 1000 →
          (PerformanceMonitor.updatePerformanceMetrics 2000 pmSample).throughput
            = (pmSample.completed : ℚ)
              / (((2000 - pmSample.startTime : Int) : ℚ) / 1000))
        ∧ ((2000 : Int) = pmSample.startTime →
          (PerformanceMonitor.updatePerformanceMetrics 2000 pmSample).throughput = 0)
        ∧ (0 < pmSample.total →
          (PerformanceMonitor.updatePerformanceMetrics 2000 pmSample).errorRate
            = (pmSample.failed : ℚ) / (pmSample.total : ℚ))
        ∧ (pmSample.total = 0 →
          (PerformanceMonitor.updatePerformanceMetrics 2000 pmSample).errorRate = 0)) :=
  ⟨by simp [pmSample], pm_metric_division_safety pmSample 2000 (by simp [pmSample])⟩

/-! ### ResourceManager (src/model/core/ResourceManager.js)

The manager owns a RequestQueue and a PerformanceMonitor; only the queue is
relevant to the claims below, so the embedded state carries the queue state,
the mutable `options`/`resourceLimits` numbers and the two flags.
`degradedAtConfigured` is an instrumentation field recording the configured
ceiling at the moment degradation was enabled; it is read by no operation.

Registered collaborators (`this.modelManagers`): only their
`optimizeMemory()` outcome is observable to the manager, so a pass over them
is modelled by a list of booleans, entry `i` telling whether the `i`-th
registered collaborator's `optimizeMemory()` fulfils (`true`) or rejects
(`false`). -/

/-- Argument object of `updateResourceLimits`: each field is absent
(`none`) or a number; JavaScript truthiness for a present number is
`≠ 0` (`NaN` has no integer counterpart). -/
structure NewLimits where
  maxMemoryUsage : Option Int
  maxProcessingTime : Option Int
  maxConcurrentRequests : Option Int
deriving DecidableEq

structure RMState where
  /-- mutable option `this.options.maxMemoryUsage`. -/
  optMaxMemoryUsage : Int
  /-- mutable option `this.options.maxProcessingTime`. -/
  optMaxProcessingTime : Int
  /-- mutable option `this.options.maxConcurrentRequests`. -/
  optMaxConcurrentRequests : Int
  /-- limit `this.resourceLimits.maxMemoryUsage`. -/
  limMaxMemoryUsage : Int
  /-- limit `this.resourceLimits.maxProcessingTime`. -/
  limMaxProcessingTime : Int
  /-- owned queue `this.requestQueue`. -/
  requestQueue : RQState
  /-- flag `this.isOptimizing`. -/
  isOptimizing : Bool
  /-- flag `this.isDegraded`. -/
  isDegraded : Bool
  /-- timestamp `this.lastOptimization` (`null` initially). -/
  lastOptimization : Option Int
  /-- instrumentation: `optMaxConcurrentRequests` when degradation was last
  enabled. -/
  degradedAtConfigured : Int
deriving DecidableEq

namespace ResourceManager

/-- Constructor (lines 24-57) with already-defaulted numeric options. -/
def init (maxMemoryUsage maxConcurrentRequests maxProcessingTime : Int) : RMState :=
  { optMaxMemoryUsage := maxMemoryUsage
    optMaxProcessingTime := maxProcessingTime
    optMaxConcurrentRequests := maxConcurrentRequests
    limMaxMemoryUsage := maxMemoryUsage
    limMaxProcessingTime := maxProcessingTime
    requestQueue := RequestQueue.init maxConcurrentRequests
    isOptimizing := false, isDegraded := false
    lastOptimization := none
    degradedAtConfigured := maxConcurrentRequests }

/-- Result of one `optimizeResources()` call: the new manager state, which
collaborators had `optimizeMemory()` invoked, and whether the call rejected
to its caller. -/
structure OptResult where
  state : RMState
  invoked : List Bool
  threw : Bool
deriving DecidableEq

/-- Method `optimizeResources` (lines 198-245).  A call while `isOptimizing`
returns at once.  Otherwise the flag is set and the `try` block runs: the
`.map` over the registered collaborators starts every `optimizeMemory()`
(each async wrapper runs up to its first `await` immediately), and a
rejection of collaborator `i` is caught by the per-collaborator `catch`
(logged only), so the awaited `Promise.all` fulfils regardless of
`collabs`.  `internalError` models a throw from the remainder of the `try`
block (e.g. `global.gc()`): it skips `clearHistory` and the
`lastOptimization` stamp and is caught by the outer `catch`, which only
logs.  The `finally` clears `isOptimizing` on every path, and no error ever
propagates to the caller. -/
def optimizeResources (now : Int) (s : RMState) (collabs : List Bool)
    (internalError : Bool) : OptResult :=
  if s.isOptimizing then
    { state := s, invoked := collabs.map (fun _ => false), threw := false }
  else
    let s1 := { s with isOptimizing := true }
    let invoked := collabs.map (fun _ => true)
    let s2 :=
      if internalError then s1
      else
        { s1 with requestQueue := RequestQueue.clearHistory s1.requestQueue
                  lastOptimization := some now }
    { state := { s2 with isOptimizing := false }, invoked := invoked
      threw := false }

/-- Method `enableGracefulDegradation` (lines 251-271): a no-op while
already degraded; otherwise set the flag, halve the configured ceiling
(floored, with a minimum of 1) on the queue, and run an aggressive
optimization pass.  (The recovery timer it schedules is modelled by later
`disable` events.) -/
def enableGracefulDegradation (now : Int) (s : RMState) (collabs : List Bool)
    (internalError : Bool) : RMState :=
  if s.isDegraded then s
  else
    let s1 := { s with isDegraded := true
                       degradedAtConfigured := s.optMaxConcurrentRequests }
    let reduced := max 1 (Int.fdiv s1.optMaxConcurrentRequests 2)
    let s2 := { s1 with
      requestQueue := RequestQueue.setMaxConcurrent s1.requestQueue reduced }
    (optimizeResources now s2 collabs internalError).state

/-- Method `disableGracefulDegradation` (lines 295-306): a no-op while not
degraded; otherwise clear the flag and restore the configured ceiling on the
queue. -/
def disableGracefulDegradation (s : RMState) : RMState :=
  if s.isDegraded then
    let s1 := { s with isDegraded := false }
    { s1 with requestQueue :=
        RequestQueue.setMaxConcurrent s1.requestQueue s1.optMaxConcurrentRequests }
  else s

/-- First if-block of `updateResourceLimits` (lines 376-379): a truthy
`newLimits.maxMemoryUsage` overwrites the limit and the option. -/
def applyMaxMemoryUsage (s : RMState) (o : Option Int) : RMState :=
  match o with
  | some m =>
    if m ≠ 0 then { s with limMaxMemoryUsage := m, optMaxMemoryUsage := m } else s
  | none => s

/-- Second if-block of `updateResourceLimits` (lines 381-384): a truthy
`newLimits.maxProcessingTime` overwrites the limit and the option. -/
def applyMaxProcessingTime (s : RMState) (o : Option Int) : RMState :=
  match o with
  | some m =>
    if m ≠ 0 then { s with limMaxProcessingTime := m, optMaxProcessingTime := m } else s
  | none => s

/-- Third if-block of `updateResourceLimits` (lines 386-391): a truthy
`newLimits.maxConcurrentRequests` overwrites the option and, only when not
degraded, is pushed to the queue via `setMaxConcurrent`. -/
def applyMaxConcurrentRequests (s : RMState) (o : Option Int) : RMState :=
  match o with
  | some n =>
    if n ≠ 0 then
      let s' := { s with optMaxConcurrentRequests := n }
      if s'.isDegraded then s'
      else { s' with requestQueue := RequestQueue.setMaxConcurrent s'.requestQueue n }
    else s
  | none => s

/-- Method `updateResourceLimits` (lines 373-397): the three if-blocks in
source order. -/
def updateResourceLimits (s : RMState) (nl : NewLimits) : RMState :=
  applyMaxConcurrentRequests
    (applyMaxProcessingTime
      (applyMaxMemoryUsage s nl.maxMemoryUsage) nl.maxProcessingTime)
    nl.maxConcurrentRequests

end ResourceManager

/-- Externally chosen events driving a ResourceManager run, covering the
operations named by the degradation claims. -/
inductive RMEvent where
  | enable (now : Int) (collabs : List Bool) (internalError : Bool) : RMEvent
  | disable : RMEvent
  | update (nl : NewLimits) : RMEvent
  | optimize (now : Int) (collabs : List Bool) (internalError : Bool) : RMEvent
deriving DecidableEq

/-- Effect of one event on the manager state. -/
def RMstep (s : RMState) : RMEvent → RMState
  | .enable now collabs err => ResourceManager.enableGracefulDegradation now s collabs err
  | .disable => ResourceManager.disableGracefulDegradation s
  | .update nl => ResourceManager.updateResourceLimits s nl
  | .optimize now collabs err => (ResourceManager.optimizeResources now s collabs err).state

/-- Run a list of events from a state. -/
def RMrun (s : RMState) : List RMEvent → RMState
  | [] => s
  | e :: es => RMrun (RMstep s e) es

/-! ### Claim C3: the degradation ceiling invariant -/

theorem setMaxConcurrent_ceiling (q : RQState) (n : Int) :
    (RequestQueue.setMaxConcurrent q n).maxConcurrent = max 1 n := by
  simp only [RequestQueue.setMaxConcurrent]
  split
  · rw [processNext_maxConcurrent]
  · rfl

theorem optimizeResources_frame (now : Int) (s : RMState) (collabs : List Bool)
    (err : Bool) :
    ((ResourceManager.optimizeResources now s collabs err).state).isDegraded
        = s.isDegraded
      ∧ ((ResourceManager.optimizeResources now s collabs
          err).state).optMaxConcurrentRequests = s.optMaxConcurrentRequests
      ∧ ((ResourceManager.optimizeResources now s collabs
          err).state).degradedAtConfigured = s.degradedAtConfigured
      ∧ ((ResourceManager.optimizeResources now s collabs
          err).state).requestQueue.maxConcurrent = s.requestQueue.maxConcurrent := by
  simp only [ResourceManager.optimizeResources]
  split
  · exact ⟨rfl, rfl, rfl, rfl⟩
  · split <;> exact ⟨rfl, rfl, rfl, rfl⟩

theorem updateStagesPre_frame (s : RMState) (mm mpt : Option Int) :
    (ResourceManager.applyMaxProcessingTime
        (ResourceManager.applyMaxMemoryUsage s mm) mpt).isDegraded = s.isDegraded
      ∧ (ResourceManager.applyMaxProcessingTime
          (ResourceManager.applyMaxMemoryUsage s mm) mpt).optMaxConcurrentRequests
        = s.optMaxConcurrentRequests
      ∧ (ResourceManager.applyMaxProcessingTime
          (ResourceManager.applyMaxMemoryUsage s mm) mpt).degradedAtConfigured
        = s.degradedAtConfigured
      ∧ (ResourceManager.applyMaxProcessingTime
          (ResourceManager.applyMaxMemoryUsage s mm) mpt).requestQueue
        = s.requestQueue := by
  have h1 : ∀ (t : RMState) (o : Option Int),
      (ResourceManager.applyMaxMemoryUsage t o).isDegraded = t.isDegraded
        ∧ (ResourceManager.applyMaxMemoryUsage t o).optMaxConcurrentRequests
          = t.optMaxConcurrentRequests
        ∧ (ResourceManager.applyMaxMemoryUsage t o).degradedAtConfigured
          = t.degradedAtConfigured
        ∧ (ResourceManager.applyMaxMemoryUsage t o).requestQueue = t.requestQueue := by
    intro t o
    cases o with
    | none => exact ⟨rfl, rfl, rfl, rfl⟩
    | some m =>
      simp only [ResourceManager.applyMaxMemoryUsage]
      split <;> exact ⟨rfl, rfl, rfl, rfl⟩
  have h2 : ∀ (t : RMState) (o : Option Int),
      (ResourceManager.applyMaxProcessingTime t o).isDegraded = t.isDegraded
        ∧ (ResourceManager.applyMaxProcessingTime t o).optMaxConcurrentRequests
          = t.optMaxConcurrentRequests
        ∧ (ResourceManager.applyMaxProcessingTime t o).degradedAtConfigured
          = t.degradedAtConfigured
        ∧ (ResourceManager.applyMaxProcessingTime t o).requestQueue = t.requestQueue := by
    intro t o
    cases o with
    | none => exact ⟨rfl, rfl, rfl, rfl⟩
    | some m =>
      simp only [ResourceManager.applyMaxProcessingTime]
      split <;> exact ⟨rfl, rfl, rfl, rfl⟩
  obtain ⟨a1, a2, a3, a4⟩ := h1 s mm
  obtain ⟨b1, b2, b3, b4⟩ := h2 (ResourceManager.applyMaxMemoryUsage s mm) mpt
  exact ⟨b1.trans a1, b2.trans a2, b3.trans a3, b4.trans a4⟩

/-- Amended invariant of claim C3: while degraded the queue ceiling is the
halved (floored at 1) value of the ceiling configured when degradation was
enabled; while not degraded it is the clamped currently-configured
ceiling. -/
structure CeilingInv (s : RMState) : Prop where
  degradedCeil : s.isDegraded = true →
    s.requestQueue.maxConcurrent = max 1 (Int.fdiv s.degradedAtConfigured 2)
  normalCeil : s.isDegraded = false →
    s.requestQueue.maxConcurrent = max 1 s.optMaxConcurrentRequests

theorem RMstep_ceilingInv (s : RMState) (e : RMEvent) (h : CeilingInv s) :
    CeilingInv (RMstep s e) := by
  cases e with
  | enable now collabs err =>
    show CeilingInv (ResourceManager.enableGracefulDegradation now s collabs err)
    simp only [ResourceManager.enableGracefulDegradation]
    split
    · exact h
    · obtain ⟨f1, f2, f3, f4⟩ := optimizeResources_frame now
        { s with isDegraded := true
                 degradedAtConfigured := s.optMaxConcurrentRequests
                 requestQueue := RequestQueue.setMaxConcurrent s.requestQueue
                   (max 1 (Int.fdiv s.optMaxConcurrentRequests 2)) } collabs err
      refine ⟨?_, ?_⟩
      · intro _
        rw [f4, f3]
        show (RequestQueue.setMaxConcurrent s.requestQueue
            (max 1 (Int.fdiv s.optMaxConcurrentRequests 2))).maxConcurrent
          = max 1 (Int.fdiv s.optMaxConcurrentRequests 2)
        rw [setMaxConcurrent_ceiling]
        omega
      · intro hnd
        rw [f1] at hnd
        simp at hnd
  | disable =>
    show CeilingInv (ResourceManager.disableGracefulDegradation s)
    simp only [ResourceManager.disableGracefulDegradation]
    split
    · refine ⟨?_, ?_⟩
      · intro hd
        simp at hd
      · intro _
        exact setMaxConcurrent_ceiling s.requestQueue s.optMaxConcurrentRequests
    · exact h
  | update nl =>
    show CeilingInv (ResourceManager.updateResourceLimits s nl)
    obtain ⟨u1, u2, u3, u4⟩ := updateStagesPre_frame s nl.maxMemoryUsage
      nl.maxProcessingTime
    simp only [ResourceManager.updateResourceLimits]
    have hu : CeilingInv (ResourceManager.applyMaxProcessingTime
        (ResourceManager.applyMaxMemoryUsage s nl.maxMemoryUsage)
        nl.maxProcessingTime) := by
      refine ⟨?_, ?_⟩
      · intro hd
        rw [u4, u3]
        exact h.degradedCeil (u1 ▸ hd)
      · intro hnd
        rw [u4, u2]
        exact h.normalCeil (u1 ▸ hnd)
    generalize hgen : ResourceManager.applyMaxProcessingTime
      (ResourceManager.applyMaxMemoryUsage s nl.maxMemoryUsage)
      nl.maxProcessingTime = u at hu ⊢
    cases hmcr : nl.maxConcurrentRequests with
    | none => exact hu
    | some n =>
      simp only [ResourceManager.applyMaxConcurrentRequests]
      split
      · split
        · rename_i hdeg
          exact ⟨fun _ => hu.degradedCeil hdeg,
            fun hnd => absurd (hdeg.symm.trans hnd) (by simp)⟩
        · rename_i hdeg
          exact ⟨fun hd => absurd hd hdeg,
            fun _ => setMaxConcurrent_ceiling u.requestQueue n⟩
      · exact hu
  | optimize now collabs err =>
    show CeilingInv ((ResourceManager.optimizeResources now s collabs err).state)
    obtain ⟨f1, f2, f3, f4⟩ := optimizeResources_frame now s collabs err
    refine ⟨?_, ?_⟩
    · intro hd
      rw [f4, f3]
      exact h.degradedCeil (f1 ▸ hd)
    · intro hnd
      rw [f4, f2]
      exact h.normalCeil (f1 ▸ hnd)

/-- Claim C3 (amended): from a constructor-configured ceiling of at least 1,
every interleaving of `enableGracefulDegradation`,
`disableGracefulDegradation`, `updateResourceLimits`, and
`optimizeResources` calls maintains: while degraded, the queue ceiling is
`max 1 ⌊c/2⌋` where `c` is the ceiling that was configured at the moment
degradation was enabled; while not degraded, the queue ceiling is the
clamped currently-configured ceiling `max 1 ·`.  (As stated the claim is
false: `updateResourceLimits` while degraded changes the configured ceiling
without re-halving the queue ceiling, see the counterexample.) -/
theorem rm_degradation_ceiling_invariant (mm mcr mpt : Int) (h1 : 1 ≤ mcr)
    (es : List RMEvent) :
    CeilingInv (RMrun (ResourceManager.init mm mcr mpt) es) := by
  have hinit : CeilingInv (ResourceManager.init mm mcr mpt) := by
    refine ⟨?_, ?_⟩
    · intro hd
      simp [ResourceManager.init] at hd
    · intro _
      show mcr = max 1 mcr
      omega
  have hrun : ∀ (l : List RMEvent) (t : RMState),
      CeilingInv t → CeilingInv (RMrun t l) := by
    intro l
    induction l with
    | nil => exact fun t ht => ht
    | cons e l ih => exact fun t ht => ih _ (RMstep_ceilingInv t e ht)
  exact hrun es _ hinit

/-- Claim C3, witness: a degrade, a runtime memory-limit update, a recovery
and a concurrency update, starting from ceiling 3. -/
theorem rm_degradation_ceiling_invariant_witness :
    (1 : Int) ≤ 3
      ∧ CeilingInv (RMrun (ResourceManager.init 16000 3 30000)
          [.enable 0 [] false, .update ⟨some 8000, none, none⟩, .disable,
            .update ⟨none, none, some 5⟩]) :=
  ⟨by decide,
   rm_degradation_ceiling_invariant 16000 3 30000 (by decide)
     [.enable 0 [] false, .update ⟨some 8000, none, none⟩, .disable,
       .update ⟨none, none, some 5⟩]⟩

/-- Claim C3, counterexample to the claim as stated: configure ceiling 6,
degrade (queue ceiling becomes 3), then update the configured ceiling to 10
while degraded; the state is degraded but the queue ceiling is 3, not
`max 1 (10 / 2) = 5`. -/
theorem rm_degradation_ceiling_cex :
    (RMrun (ResourceManager.init 16000 6 30000)
        [.enable 0 [] false, .update ⟨none, none, some 10⟩]).isDegraded = true
      ∧ (RMrun (ResourceManager.init 16000 6 30000)
          [.enable 0 [] false, .update ⟨none, none, some 10⟩]).requestQueue.maxConcurrent
        ≠ max 1 (Int.fdiv (RMrun (ResourceManager.init 16000 6 30000)
            [.enable 0 [] false,
              .update ⟨none, none, some 10⟩]).optMaxConcurrentRequests 2) := by
  decide

/-! ### Claims C5 and C6: optimizeResources isolation, re-entrancy, cleanup -/

/-- Claim C5: whatever the outcomes of the registered collaborators'
`optimizeMemory()` calls — including any number of rejections — a running
`optimizeResources()` pass invokes `optimizeMemory()` on every registered
collaborator and never rejects to its caller. -/
theorem rm_optimize_isolation (now : Int) (s : RMState) (collabs : List Bool)
    (err : Bool) (h : s.isOptimizing = false) :
    (ResourceManager.optimizeResources now s collabs err).invoked.length
        = collabs.length
      ∧ (∀ b ∈ (ResourceManager.optimizeResources now s collabs err).invoked,
          b = true)
      ∧ (ResourceManager.optimizeResources now s collabs err).threw = false := by
  simp [ResourceManager.optimizeResources, h]

/-- Manager state used in witnesses: freshly constructed, not optimizing. -/
def rmIdle : RMState := ResourceManager.init 16000 3 30000

/-- Manager state used in witnesses: mid-optimization. -/
def rmBusy : RMState := { rmIdle with isOptimizing := true }

/-- Claim C5, witness: two collaborators of which the first rejects; both
are invoked and the call does not throw. -/
theorem rm_optimize_isolation_witness :
    rmIdle.isOptimizing = false
      ∧ ((ResourceManager.optimizeResources 7 rmIdle [false, true] false).invoked.length
          = ([false, true] : List Bool).length
        ∧ (∀ b ∈ (ResourceManager.optimizeResources 7 rmIdle
            [false, true] false).invoked, b = true)
        ∧ (ResourceManager.optimizeResources 7 rmIdle [false, true] false).threw
          = false) :=
  ⟨rfl, rm_optimize_isolation 7 rmIdle [false, true] false rfl⟩

/-- Claim C6: a call made while `isOptimizing` is true is a no-op (state
unchanged, no collaborator invoked); a call that runs — with any
collaborator outcomes and even when an internal error is thrown inside the
`try` block — ends with `isOptimizing = false` and does not throw to its
caller. -/
theorem rm_optimize_reentrancy_cleanup (now : Int) (s : RMState)
    (collabs : List Bool) (err : Bool) :
    (s.isOptimizing = true →
        (ResourceManager.optimizeResources now s collabs err).state = s
          ∧ (∀ b ∈ (ResourceManager.optimizeResources now s collabs err).invoked,
              b = false)
          ∧ (ResourceManager.optimizeResources now s collabs err).threw = false)
      ∧ (s.isOptimizing = false →
        (ResourceManager.optimizeResources now s collabs err).state.isOptimizing
            = false
          ∧ (ResourceManager.optimizeResources now s collabs err).threw = false) := by
  constructor
  · intro h
    simp [ResourceManager.optimizeResources, h]
  · intro h
    cases err <;> simp [ResourceManager.optimizeResources, h]

/-- Claim C6, witness: the no-op case on a mid-optimization state and the
cleanup case on an idle state with an internal error. -/
theorem rm_optimize_reentrancy_cleanup_witness :
    (rmBusy.isOptimizing = true
      ∧ ((ResourceManager.optimizeResources 0 rmBusy [true] false).state = rmBusy
        ∧ (∀ b ∈ (ResourceManager.optimizeResources 0 rmBusy [true] false).invoked,
            b = false)
        ∧ (ResourceManager.optimizeResources 0 rmBusy [true] false).threw = false))
      ∧ (rmIdle.isOptimizing = false
        ∧ ((ResourceManager.optimizeResources 0 rmIdle [true] true).state.isOptimizing
            = false
          ∧ (ResourceManager.optimizeResources 0 rmIdle [true] true).threw = false)) :=
  ⟨⟨rfl, (rm_optimize_reentrancy_cleanup 0 rmBusy [true] false).1 rfl⟩,
   ⟨rfl, (rm_optimize_reentrancy_cleanup 0 rmIdle [true] true).2 rfl⟩⟩

/-! ### Claim C9: setMaxConcurrent clamps to at least 1 and dispatches -/

/-- Claim C9: after `setMaxConcurrent(n)` the ceiling is `max 1 n` (never 0,
also for zero or negative arguments); if the ceiling did not increase the
wait list and processing set are untouched, and if it increased a dispatch
attempt runs immediately — so a waiting head item is dispatched whenever
there is capacity for it. -/
theorem rq_setMaxConcurrent_spec (s : RQState) (n : Int) :
    (RequestQueue.setMaxConcurrent s n).maxConcurrent = max 1 n
      ∧ 1 ≤ (RequestQueue.setMaxConcurrent s n).maxConcurrent
      ∧ (max 1 n ≤ s.maxConcurrent →
          (RequestQueue.setMaxConcurrent s n).queue = s.queue
            ∧ (RequestQueue.setMaxConcurrent s n).processing = s.processing)
      ∧ (∀ i rest, s.maxConcurrent < max 1 n → s.queue = i :: rest →
          (s.processing.length : Int) < max 1 n →
          (RequestQueue.setMaxConcurrent s n).queue = rest
            ∧ (RequestQueue.setMaxConcurrent s n).processing
              = s.processing ++ [i]) := by
  refine ⟨setMaxConcurrent_ceiling s n, ?_, ?_, ?_⟩
  · rw [setMaxConcurrent_ceiling]
    omega
  · intro hle
    simp only [RequestQueue.setMaxConcurrent]
    split
    · rename_i hgt
      have hgt' : s.maxConcurrent < max 1 n := hgt
      exact absurd hgt' (not_lt.mpr hle)
    · exact ⟨rfl, rfl⟩
  · intro i rest hgt hq hlen
    simp only [RequestQueue.setMaxConcurrent]
    split
    · have hc : ¬ ((s.processing.length : Int) ≥ max 1 n) := by omega
      simp [RequestQueue.processNext, hq, hc]
    · rename_i hngt
      have hgt' : ¬ s.maxConcurrent < max 1 n := hngt
      exact absurd hgt hgt'

/-- Claim C9, witness: starting from ceiling 1 with one item in flight and
one waiting, `setMaxConcurrent 3` clamps the ceiling to 3 and immediately
dispatches the waiting item. -/
theorem rq_setMaxConcurrent_spec_witness :
    ((RQrun (RequestQueue.init 1) [.enq, .enq]).maxConcurrent
          < max 1 3
        ∧ (RQrun (RequestQueue.init 1) [.enq, .enq]).queue = [1]
        ∧ (((RQrun (RequestQueue.init 1) [.enq, .enq]).processing.length : Int)
          < max 1 3))
      ∧ ((RequestQueue.setMaxConcurrent (RQrun (RequestQueue.init 1) [.enq, .enq])
            3).queue = []
        ∧ (RequestQueue.setMaxConcurrent (RQrun (RequestQueue.init 1) [.enq, .enq])
            3).processing
          = (RQrun (RequestQueue.init 1) [.enq, .enq]).processing ++ [1]) :=
  ⟨by decide,
   (rq_setMaxConcurrent_spec (RQrun (RequestQueue.init 1) [.enq, .enq]) 3).2.2.2
     1 [] (by decide) (by decide) (by decide)⟩

/-! ### Claim C10: updateResourceLimits updates only present truthy fields -/

theorem applyMMU_frame (t : RMState) (o : Option Int) :
    (ResourceManager.applyMaxMemoryUsage t o).limMaxProcessingTime
        = t.limMaxProcessingTime
      ∧ (ResourceManager.applyMaxMemoryUsage t o).optMaxProcessingTime
        = t.optMaxProcessingTime
      ∧ (ResourceManager.applyMaxMemoryUsage t o).optMaxConcurrentRequests
        = t.optMaxConcurrentRequests
      ∧ (ResourceManager.applyMaxMemoryUsage t o).requestQueue = t.requestQueue := by
  cases o with
  | none => exact ⟨rfl, rfl, rfl, rfl⟩
  | some m =>
    simp only [ResourceManager.applyMaxMemoryUsage]
    split <;> exact ⟨rfl, rfl, rfl, rfl⟩

theorem applyMPT_frame (t : RMState) (o : Option Int) :
    (ResourceManager.applyMaxProcessingTime t o).limMaxMemoryUsage
        = t.limMaxMemoryUsage
      ∧ (ResourceManager.applyMaxProcessingTime t o).optMaxMemoryUsage
        = t.optMaxMemoryUsage
      ∧ (ResourceManager.applyMaxProcessingTime t o).optMaxConcurrentRequests
        = t.optMaxConcurrentRequests
      ∧ (ResourceManager.applyMaxProcessingTime t o).requestQueue = t.requestQueue := by
  cases o with
  | none => exact ⟨rfl, rfl, rfl, rfl⟩
  | some m =>
    simp only [ResourceManager.applyMaxProcessingTime]
    split <;> exact ⟨rfl, rfl, rfl, rfl⟩

theorem applyMCR_frame (t : RMState) (o : Option Int) :
    (ResourceManager.applyMaxConcurrentRequests t o).limMaxMemoryUsage
        = t.limMaxMemoryUsage
      ∧ (ResourceManager.applyMaxConcurrentRequests t o).limMaxProcessingTime
        = t.limMaxProcessingTime
      ∧ (ResourceManager.applyMaxConcurrentRequests t o).optMaxMemoryUsage
        = t.optMaxMemoryUsage
      ∧ (ResourceManager.applyMaxConcurrentRequests t o).optMaxProcessingTime
        = t.optMaxProcessingTime := by
  cases o with
  | none => exact ⟨rfl, rfl, rfl, rfl⟩
  | some n =>
    simp only [ResourceManager.applyMaxConcurrentRequests]
    split
    · split <;> exact ⟨rfl, rfl, rfl, rfl⟩
    · exact ⟨rfl, rfl, rfl, rfl⟩

theorem applyMMU_falsy (t : RMState) (o : Option Int)
    (h : o = none ∨ o = some 0) : ResourceManager.applyMaxMemoryUsage t o = t := by
  rcases h with rfl | rfl
  · rfl
  · simp [ResourceManager.applyMaxMemoryUsage]

theorem applyMPT_falsy (t : RMState) (o : Option Int)
    (h : o = none ∨ o = some 0) :
    ResourceManager.applyMaxProcessingTime t o = t := by
  rcases h with rfl | rfl
  · rfl
  · simp [ResourceManager.applyMaxProcessingTime]

theorem applyMCR_falsy (t : RMState) (o : Option Int)
    (h : o = none ∨ o = some 0) :
    ResourceManager.applyMaxConcurrentRequests t o = t := by
  rcases h with rfl | rfl
  · rfl
  · simp [ResourceManager.applyMaxConcurrentRequests]

theorem applyMMU_truthy (t : RMState) (m : Int) (h : m ≠ 0) :
    (ResourceManager.applyMaxMemoryUsage t (some m)).limMaxMemoryUsage = m
      ∧ (ResourceManager.applyMaxMemoryUsage t (some m)).optMaxMemoryUsage = m := by
  simp [ResourceManager.applyMaxMemoryUsage, h]

theorem applyMPT_truthy (t : RMState) (m : Int) (h : m ≠ 0) :
    (ResourceManager.applyMaxProcessingTime t (some m)).limMaxProcessingTime = m
      ∧ (ResourceManager.applyMaxProcessingTime t (some m)).optMaxProcessingTime
        = m := by
  simp [ResourceManager.applyMaxProcessingTime, h]

theorem applyMCR_truthy (t : RMState) (n : Int) (h : n ≠ 0) :
    (ResourceManager.applyMaxConcurrentRequests t (some n)).optMaxConcurrentRequests
      = n := by
  simp only [ResourceManager.applyMaxConcurrentRequests, if_pos h]
  split <;> rfl

/-- Claim C10: `updateResourceLimits` updates exactly the present truthy
fields.  An absent or zero (falsy) field leaves the corresponding limit and
option unchanged — so each stored limit either keeps its previous value or
becomes a supplied non-zero value, and no limit can be set to 0 — and every
limit not named in the argument keeps its previous value. -/
theorem rm_updateResourceLimits_frame (s : RMState) (nl : NewLimits) :
    ((nl.maxMemoryUsage = none ∨ nl.maxMemoryUsage = some 0) →
        (ResourceManager.updateResourceLimits s nl).limMaxMemoryUsage
            = s.limMaxMemoryUsage
          ∧ (ResourceManager.updateResourceLimits s nl).optMaxMemoryUsage
            = s.optMaxMemoryUsage)
      ∧ ((nl.maxProcessingTime = none ∨ nl.maxProcessingTime = some 0) →
        (ResourceManager.updateResourceLimits s nl).limMaxProcessingTime
            = s.limMaxProcessingTime
          ∧ (ResourceManager.updateResourceLimits s nl).optMaxProcessingTime
            = s.optMaxProcessingTime)
      ∧ ((nl.maxConcurrentRequests = none ∨ nl.maxConcurrentRequests = some 0) →
        (ResourceManager.updateResourceLimits s nl).optMaxConcurrentRequests
            = s.optMaxConcurrentRequests
          ∧ (ResourceManager.updateResourceLimits s nl).requestQueue
            = s.requestQueue)
      ∧ ((ResourceManager.updateResourceLimits s nl).limMaxMemoryUsage
            = s.limMaxMemoryUsage
          ∨ ∃ m, nl.maxMemoryUsage = some m ∧ m ≠ 0
            ∧ (ResourceManager.updateResourceLimits s nl).limMaxMemoryUsage = m)
      ∧ ((ResourceManager.updateResourceLimits s nl).limMaxProcessingTime
            = s.limMaxProcessingTime
          ∨ ∃ m, nl.maxProcessingTime = some m ∧ m ≠ 0
            ∧ (ResourceManager.updateResourceLimits s nl).limMaxProcessingTime = m)
      ∧ ((ResourceManager.updateResourceLimits s nl).optMaxConcurrentRequests
            = s.optMaxConcurrentRequests
          ∨ ∃ n, nl.maxConcurrentRequests = some n ∧ n ≠ 0
            ∧ (ResourceManager.updateResourceLimits s nl).optMaxConcurrentRequests
              = n) := by
  simp only [ResourceManager.updateResourceLimits]
  obtain ⟨c1, c2, c3, c4⟩ := applyMCR_frame
    (ResourceManager.applyMaxProcessingTime
      (ResourceManager.applyMaxMemoryUsage s nl.maxMemoryUsage)
      nl.maxProcessingTime) nl.maxConcurrentRequests
  obtain ⟨b1, b2, b3, b4⟩ := applyMPT_frame
    (ResourceManager.applyMaxMemoryUsage s nl.maxMemoryUsage) nl.maxProcessingTime
  obtain ⟨a1, a2, a3, a4⟩ := applyMMU_frame s nl.maxMemoryUsage
  refine ⟨?_, ?_, ?_, ?_, ?_, ?_⟩
  · intro hf
    have hA := applyMMU_falsy s nl.maxMemoryUsage hf
    constructor
    · rw [c1, b1, hA]
    · rw [c3, b2, hA]
  · intro hf
    have hB := applyMPT_falsy
      (ResourceManager.applyMaxMemoryUsage s nl.maxMemoryUsage)
      nl.maxProcessingTime hf
    constructor
    · rw [c2, hB, a1]
    · rw [c4, hB, a2]
  · intro hf
    have hC := applyMCR_falsy
      (ResourceManager.applyMaxProcessingTime
        (ResourceManager.applyMaxMemoryUsage s nl.maxMemoryUsage)
        nl.maxProcessingTime)
      nl.maxConcurrentRequests hf
    constructor
    · rw [hC, b3, a3]
    · rw [hC, b4, a4]
  · by_cases hf : nl.maxMemoryUsage = none ∨ nl.maxMemoryUsage = some 0
    · have hA := applyMMU_falsy s nl.maxMemoryUsage hf
      exact Or.inl (by rw [c1, b1, hA])
    · have hm : ∃ m, nl.maxMemoryUsage = some m ∧ m ≠ 0 := by
        cases hval : nl.maxMemoryUsage with
        | none => exact absurd (Or.inl hval) hf
        | some m =>
          exact ⟨m, rfl, fun h0 => hf (Or.inr (by rw [hval, h0]))⟩
      obtain ⟨m, hmm, h0⟩ := hm
      refine Or.inr ⟨m, hmm, h0, ?_⟩
      rw [c1, b1, hmm]
      exact (applyMMU_truthy s m h0).1
  · by_cases hf : nl.maxProcessingTime = none ∨ nl.maxProcessingTime = some 0
    · have hB := applyMPT_falsy
        (ResourceManager.applyMaxMemoryUsage s nl.maxMemoryUsage)
        nl.maxProcessingTime hf
      exact Or.inl (by rw [c2, hB, a1])
    · have hm : ∃ m, nl.maxProcessingTime = some m ∧ m ≠ 0 := by
        cases hval : nl.maxProcessingTime with
        | none => exact absurd (Or.inl hval) hf
        | some m =>
          exact ⟨m, rfl, fun h0 => hf (Or.inr (by rw [hval, h0]))⟩
      obtain ⟨m, hmpt, h0⟩ := hm
      refine Or.inr ⟨m, hmpt, h0, ?_⟩
      rw [c2, hmpt]
      exact (applyMPT_truthy
        (ResourceManager.applyMaxMemoryUsage s nl.maxMemoryUsage) m h0).1
  · by_cases hf : nl.maxConcurrentRequests = none ∨ nl.maxConcurrentRequests = some 0
    · have hC := applyMCR_falsy
        (ResourceManager.applyMaxProcessingTime
          (ResourceManager.applyMaxMemoryUsage s nl.maxMemoryUsage)
          nl.maxProcessingTime)
        nl.maxConcurrentRequests hf
      exact Or.inl (by rw [hC, b3, a3])
    · have hm : ∃ n, nl.maxConcurrentRequests = some n ∧ n ≠ 0 := by
        cases hval : nl.maxConcurrentRequests with
        | none => exact absurd (Or.inl hval) hf
        | some n =>
          exact ⟨n, rfl, fun h0 => hf (Or.inr (by rw [hval, h0]))⟩
      obtain ⟨n, hmcr, h0⟩ := hm
      refine Or.inr ⟨n, hmcr, h0, ?_⟩
      rw [hmcr]
      exact applyMCR_truthy
        (ResourceManager.applyMaxProcessingTime
          (ResourceManager.applyMaxMemoryUsage s nl.maxMemoryUsage)
          nl.maxProcessingTime) n h0

/-- Claim C10, witness: an update naming only a zero memory limit and a
truthy processing-time limit leaves memory and concurrency untouched and
rewrites the processing time. -/
theorem rm_updateResourceLimits_frame_witness :
    ((⟨some 0, some 60000, none⟩ : NewLimits).maxMemoryUsage = none
        ∨ (⟨some 0, some 60000, none⟩ : NewLimits).maxMemoryUsage = some 0)
      ∧ ((ResourceManager.updateResourceLimits rmIdle
            ⟨some 0, some 60000, none⟩).limMaxMemoryUsage = rmIdle.limMaxMemoryUsage
        ∧ (ResourceManager.updateResourceLimits rmIdle
            ⟨some 0, some 60000, none⟩).optMaxMemoryUsage
          = rmIdle.optMaxMemoryUsage) :=
  ⟨Or.inr rfl,
   (rm_updateResourceLimits_frame rmIdle ⟨some 0, some 60000, none⟩).1 (Or.inr rfl)⟩

end ClearClause
